import Mathlib

/-!
Verification development for the Geowagdy plotting core (`App/app.py`).

The embedding models the three core operations of the program:

* `string_to_sympy_expr` — the parser `PlotWidget.string_to_sympy_expr`
  (app.py lines 253-270): the textual `^` → `**` rewrite, the
  character scan performed after stripping the `log10`/`sqrt`
  substrings, and the sympy `parse_expr` call with
  `standard_transformations + (implicit_multiplication_application,)`.
  The sympy tokenizer/transformation pipeline (Python tokenization,
  `auto_symbol`, `split_symbols`, `implicit_multiplication`) is
  modelled from its documented behaviour, restricted to the character
  set reachable behind the scan.
* `on_solve_clicked` — the orchestration (app.py lines 122-166):
  strip, emptiness check, parse, solve, real-filter, float
  conversion, plotting.  The symbolic solver (`sympy.solve`) and the
  float conversion of its symbolic roots are external computer-algebra
  operations; they enter as explicit parameters/data.
* `plot_functions` — the sampling planner (app.py lines 168-217):
  domain selection, the 400-point `np.linspace` sampling, and the
  `float(y) if y.is_real else np.nan` per-sample marker.
-/

namespace Geowagdy

deriving instance DecidableEq for Except

/-! ## Python string primitives -/

/-- The six ASCII whitespace characters recognised by Python's `str.strip`
and by `\s` in the validation regex. -/
def pySpace (c : Char) : Bool :=
  c == ' ' || c == '\t' || c == '\n' || c == '\r' || c == '\x0b' || c == '\x0c'

/-- Python `str.strip()`: remove leading and trailing whitespace. -/
def pyStrip (s : String) : String :=
  ⟨((s.toList.dropWhile pySpace).reverse.dropWhile pySpace).reverse⟩

/-- One fuel-indexed step list for Python `str.replace(old, new)`:
replace every non-overlapping occurrence of `old`, scanning left to
right.  The fuel is always instantiated to more than the length of the
input, so it never runs out. -/
def replFuel (old new : List Char) : Nat → List Char → List Char
  | 0, s => s
  | _ + 1, [] => []
  | f + 1, c :: rest =>
    if old ≠ [] ∧ old.isPrefixOf (c :: rest) then
      new ++ replFuel old new f (List.drop old.length (c :: rest))
    else
      c :: replFuel old new f rest

/-- Python `s.replace(old, new)`. -/
def pyReplace (s old new : String) : String :=
  ⟨replFuel old.toList new.toList (s.toList.length + 1) s.toList⟩

/-! ## The character scan (app.py lines 255-260) -/

/-- `expr_str.replace('^', '**')` — applied first, before validation. -/
def caretFix (s : String) : String := pyReplace s "^" "**"

/-- `expr_str.replace("log10", "").replace("sqrt", "")` — the text the
character scan actually inspects. -/
def stripFns (s : String) : String := pyReplace (pyReplace s "log10" "") "sqrt" ""

/-- Membership in the validation character class
`[0-9x\+\-\*/\(\)\.\s\*]`. -/
def safeChar (c : Char) : Bool :=
  c.isDigit || c == 'x' || c == '+' || c == '-' || c == '*' || c == '/' ||
    c == '(' || c == ')' || c == '.' || pySpace c

/-- The first disallowed character found by the scan loop, if any. -/
def firstBad (l : List Char) : Option Char :=
  l.find? (fun c => !(safeChar c))

/-! ## Raw tokens: the Python tokenizer, restricted to the reachable
character set (digits, `.`, ASCII letters, the operators, whitespace) -/

/-- Raw lexical tokens of the Python tokenizer. -/
inductive RTok where
  | num (q : ℚ)
  | name (s : String)
  | plus | minus | star | slash | dstar | lparen | rparen
  deriving DecidableEq, Repr

/-- Numeric value of a digit list (most significant first). -/
def natOfDigits (ds : List Char) : ℕ :=
  ds.foldl (fun a c => 10 * a + (c.toNat - 48)) 0

/-- Value of a fractional digit list. -/
def fracOfDigits (ds : List Char) : ℚ :=
  (natOfDigits ds : ℚ) / (10 ^ ds.length)

/-- Fuel-indexed tokenizer.  `NAME` tokens are maximal
letter-then-alphanumeric runs, `NUMBER` tokens are `digits [. digits]`
or `. digits`, `**` lexes as a single operator; whitespace is
skipped.  Any other character fails the tokenizer (which surfaces as a
parse failure, as in Python). -/
def tokenize : Nat → List Char → Option (List RTok)
  | 0, _ => none
  | _ + 1, [] => some []
  | f + 1, c :: rest =>
    if pySpace c then tokenize f rest
    else if c.isAlpha then
      let nm := rest.takeWhile (fun d => d.isAlpha || d.isDigit)
      let rest' := rest.dropWhile (fun d => d.isAlpha || d.isDigit)
      (tokenize f rest').map (fun ts => RTok.name ⟨c :: nm⟩ :: ts)
    else if c.isDigit then
      let ds := rest.takeWhile Char.isDigit
      let r1 := rest.dropWhile Char.isDigit
      let ipart : ℚ := (natOfDigits (c :: ds) : ℚ)
      match r1 with
      | '.' :: r2 =>
        let fs := r2.takeWhile Char.isDigit
        let r3 := r2.dropWhile Char.isDigit
        (tokenize f r3).map (fun ts => RTok.num (ipart + fracOfDigits fs) :: ts)
      | _ => (tokenize f r1).map (fun ts => RTok.num ipart :: ts)
    else if c = '.' then
      match rest with
      | d :: _ =>
        if d.isDigit then
          let fs := rest.takeWhile Char.isDigit
          let r2 := rest.dropWhile Char.isDigit
          (tokenize f r2).map (fun ts => RTok.num (fracOfDigits fs) :: ts)
        else none
      | [] => none
    else if c = '*' then
      match rest with
      | '*' :: r2 => (tokenize f r2).map (fun ts => RTok.dstar :: ts)
      | _ => (tokenize f rest).map (fun ts => RTok.star :: ts)
    else if c = '+' then (tokenize f rest).map (fun ts => RTok.plus :: ts)
    else if c = '-' then (tokenize f rest).map (fun ts => RTok.minus :: ts)
    else if c = '/' then (tokenize f rest).map (fun ts => RTok.slash :: ts)
    else if c = '(' then (tokenize f rest).map (fun ts => RTok.lparen :: ts)
    else if c = ')' then (tokenize f rest).map (fun ts => RTok.rparen :: ts)
    else none

/-- Tokenization of a string (fuel is always sufficient). -/
def tokensOf (s : String) : Option (List RTok) :=
  tokenize (s.toList.length + 1) s.toList

/-! ## Bound tokens: `auto_symbol` + `split_symbols` with
`local_dict = {x, log10, sqrt}` -/

/-- Tokens after name resolution: `x` is the declared-real symbol, the
two named functions are callables, any other name char becomes an
auto-created symbol (a free variable distinct from `x`). -/
inductive PTok where
  | num (q : ℚ)
  | varx
  | fnlog | fnsqrt
  | sym (c : Char)
  | plus | minus | star | slash | dstar | lparen | rparen
  deriving DecidableEq, Repr

/-- `split_symbols` on the characters of an unbound name: `x` stays the
bound symbol, digit runs become numbers, any other character becomes an
auto-created one-letter symbol. -/
def splitChars : Nat → List Char → List PTok
  | 0, _ => []
  | _ + 1, [] => []
  | f + 1, c :: rest =>
    if c = 'x' then PTok.varx :: splitChars f rest
    else if c.isDigit then
      let ds := rest.takeWhile Char.isDigit
      let r := rest.dropWhile Char.isDigit
      PTok.num (natOfDigits (c :: ds)) :: splitChars f r
    else PTok.sym c :: splitChars f rest

/-- Binding of one `NAME` token: the keys of `local_dict` resolve to
the real symbol `x` and the two functions; any other multi-character
name is splittable (no underscores or Greek names are reachable) and is
split character-wise; a leftover single-character name is an
auto-created symbol. -/
def bindName (s : String) : List PTok :=
  if s = "x" then [PTok.varx]
  else if s = "log10" then [PTok.fnlog]
  else if s = "sqrt" then [PTok.fnsqrt]
  else
    match s.toList with
    | [] => []
    | [c] => [PTok.sym c]
    | cs => splitChars (cs.length + 1) cs

/-- Binding of one raw token. -/
def bindTok : RTok → List PTok
  | RTok.num q => [PTok.num q]
  | RTok.name s => bindName s
  | RTok.plus => [PTok.plus]
  | RTok.minus => [PTok.minus]
  | RTok.star => [PTok.star]
  | RTok.slash => [PTok.slash]
  | RTok.dstar => [PTok.dstar]
  | RTok.lparen => [PTok.lparen]
  | RTok.rparen => [PTok.rparen]

/-- Binding of the whole token stream. -/
def bindAll (rts : List RTok) : List PTok :=
  (rts.map bindTok).flatten

/-! ## Implicit multiplication -/

/-- Does a token end an operand (something a product can follow)? -/
def valEnd : PTok → Bool
  | PTok.num _ => true
  | PTok.varx => true
  | PTok.sym _ => true
  | PTok.rparen => true
  | _ => false

/-- Does a token start an operand (something that can be multiplied
into from the left)?  A function name starts an operand (`2sqrt(x)`),
but a function name directly followed by `(` is an application, which
is why `valEnd` of a function name is false. -/
def valStart : PTok → Bool
  | PTok.num _ => true
  | PTok.varx => true
  | PTok.sym _ => true
  | PTok.lparen => true
  | PTok.fnlog => true
  | PTok.fnsqrt => true
  | _ => false

/-- `implicit_multiplication`: insert `*` between an operand end and an
operand start. -/
def insertMul : List PTok → List PTok
  | [] => []
  | [t] => [t]
  | t1 :: t2 :: rest =>
    if valEnd t1 && valStart t2 then t1 :: PTok.star :: insertMul (t2 :: rest)
    else t1 :: insertMul (t2 :: rest)

/-! ## The expression data model (`ParsedExpression`) -/

/-- Abstract syntax of parsed expressions.  `var` is the single
declared-real symbol `x`; `sym c` is an auto-created free symbol other
than `x`. -/
inductive Expr where
  | num (q : ℚ)
  | var
  | sym (c : Char)
  | add (a b : Expr)
  | sub (a b : Expr)
  | mul (a b : Expr)
  | div (a b : Expr)
  | pow (a b : Expr)
  | neg (a : Expr)
  | log10 (a : Expr)
  | sqrt (a : Expr)
  deriving DecidableEq, Repr

/-- `true` iff the expression holds no free variables other than `x`. -/
def noSyms : Expr → Bool
  | Expr.num _ => true
  | Expr.var => true
  | Expr.sym _ => false
  | Expr.add a b => noSyms a && noSyms b
  | Expr.sub a b => noSyms a && noSyms b
  | Expr.mul a b => noSyms a && noSyms b
  | Expr.div a b => noSyms a && noSyms b
  | Expr.pow a b => noSyms a && noSyms b
  | Expr.neg a => noSyms a
  | Expr.log10 a => noSyms a
  | Expr.sqrt a => noSyms a

/-- The free symbols other than `x`, in order of occurrence. -/
def symList : Expr → List Char
  | Expr.num _ => []
  | Expr.var => []
  | Expr.sym c => [c]
  | Expr.add a b => symList a ++ symList b
  | Expr.sub a b => symList a ++ symList b
  | Expr.mul a b => symList a ++ symList b
  | Expr.div a b => symList a ++ symList b
  | Expr.pow a b => symList a ++ symList b
  | Expr.neg a => symList a
  | Expr.log10 a => symList a
  | Expr.sqrt a => symList a

/-! ## Recursive-descent parsing of the transformed token stream
(Python expression grammar: `+ -` < `* /` < unary `+ -` < `**`) -/

/-- Parser level: additive expression, additive loop, multiplicative
expression, multiplicative loop, unary factor, power, atom. -/
inductive Lv where
  | e | eloop | t | tloop | u | p | a
  deriving DecidableEq, Repr

/-- Fuel-indexed recursive-descent parser.  `acc` is the
left-accumulated expression for the two loop levels (ignored
elsewhere).  Returns the parsed expression and the remaining tokens. -/
def parseL : Nat → Lv → Expr → List PTok → Option (Expr × List PTok)
  | 0, _, _, _ => none
  | f + 1, Lv.e, _, ts =>
    match parseL f Lv.t (Expr.num 0) ts with
    | some (e, r) => parseL f Lv.eloop e r
    | none => none
  | f + 1, Lv.eloop, acc, ts =>
    match ts with
    | [] => some (acc, [])
    | t :: r =>
      if t = PTok.plus then
        match parseL f Lv.t (Expr.num 0) r with
        | some (e2, r2) => parseL f Lv.eloop (Expr.add acc e2) r2
        | none => none
      else if t = PTok.minus then
        match parseL f Lv.t (Expr.num 0) r with
        | some (e2, r2) => parseL f Lv.eloop (Expr.sub acc e2) r2
        | none => none
      else some (acc, t :: r)
  | f + 1, Lv.t, _, ts =>
    match parseL f Lv.u (Expr.num 0) ts with
    | some (e, r) => parseL f Lv.tloop e r
    | none => none
  | f + 1, Lv.tloop, acc, ts =>
    match ts with
    | [] => some (acc, [])
    | t :: r =>
      if t = PTok.star then
        match parseL f Lv.u (Expr.num 0) r with
        | some (e2, r2) => parseL f Lv.tloop (Expr.mul acc e2) r2
        | none => none
      else if t = PTok.slash then
        match parseL f Lv.u (Expr.num 0) r with
        | some (e2, r2) => parseL f Lv.tloop (Expr.div acc e2) r2
        | none => none
      else some (acc, t :: r)
  | f + 1, Lv.u, _, ts =>
    match ts with
    | [] => parseL f Lv.p (Expr.num 0) []
    | t :: r =>
      if t = PTok.plus then parseL f Lv.u (Expr.num 0) r
      else if t = PTok.minus then
        match parseL f Lv.u (Expr.num 0) r with
        | some (e, r2) => some (Expr.neg e, r2)
        | none => none
      else parseL f Lv.p (Expr.num 0) (t :: r)
  | f + 1, Lv.p, _, ts =>
    match parseL f Lv.a (Expr.num 0) ts with
    | none => none
    | some (e, r) =>
      match r with
      | [] => some (e, [])
      | t :: r2 =>
        if t = PTok.dstar then
          match parseL f Lv.u (Expr.num 0) r2 with
          | some (b, r3) => some (Expr.pow e b, r3)
          | none => none
        else some (e, t :: r2)
  | f + 1, Lv.a, _, ts =>
    match ts with
    | PTok.num q :: r => some (Expr.num q, r)
    | PTok.varx :: r => some (Expr.var, r)
    | PTok.sym c :: r => some (Expr.sym c, r)
    | PTok.fnlog :: PTok.lparen :: r =>
      match parseL f Lv.e (Expr.num 0) r with
      | some (e, PTok.rparen :: r2) => some (Expr.log10 e, r2)
      | _ => none
    | PTok.fnsqrt :: PTok.lparen :: r =>
      match parseL f Lv.e (Expr.num 0) r with
      | some (e, PTok.rparen :: r2) => some (Expr.sqrt e, r2)
      | _ => none
    | PTok.lparen :: r =>
      match parseL f Lv.e (Expr.num 0) r with
      | some (e, PTok.rparen :: r2) => some (e, r2)
      | _ => none
    | _ => none

/-- Parse a complete token stream. -/
def parseToks (ts : List PTok) : Option Expr :=
  match parseL (8 * ts.length + 8) Lv.e (Expr.num 0) ts with
  | some (e, []) => some e
  | _ => none

/-! ## The parser's error type and `string_to_sympy_expr` -/

/-- Parse failures: the explicit character-scan `ValueError`
(`InvalidCharacterError` of the spec, carrying the offending character
and the scanned text) or a structural failure from tokenization /
parsing (`SyntaxError` of the spec). -/
inductive PErr where
  | invalidChar (c : Char) (text : String)
  | parseFailed
  deriving DecidableEq, Repr

/-- `PlotWidget.string_to_sympy_expr` (app.py lines 253-270):
first the textual `^` → `**` rewrite, then the character scan on the
text with the `log10`/`sqrt` substrings removed, then structural
parsing with implicit multiplication. -/
def string_to_sympy_expr (s : String) : Except PErr Expr :=
  match firstBad (stripFns (caretFix s)).toList with
  | some c => Except.error (PErr.invalidChar c (caretFix s))
  | none =>
    match tokensOf (caretFix s) with
    | none => Except.error PErr.parseFailed
    | some rts =>
      match parseToks (insertMul (bindAll rts)) with
      | some e => Except.ok e
      | none => Except.error PErr.parseFailed

/-! ## Evaluation semantics

`expr.subs(x, v)` followed by the `is_real` test is modelled by exact
evaluation in `ℂ` (sympy evaluates numerically on the principal
branches and then asks whether the resulting number is real), with
`none` standing for the non-number results `zoo`/`nan` (division by
zero, `log` of zero, zero to a negative power) and for values that
remain symbolic because a free symbol other than `x` is left (their
`is_real` is `None`, which the code treats like "not real"). -/

/-- Principal complex square root, written by cases so that the two
real-axis cases are directly computable: for a nonnegative real it is
the real square root, for a negative real it is `i·√(-a)`, elsewhere
the principal power `z ^ (1/2)`. -/
noncomputable def csqrt (z : ℂ) : ℂ :=
  if z.im = 0 then
    (if 0 ≤ z.re then ((Real.sqrt z.re : ℝ) : ℂ)
     else Complex.I * ((Real.sqrt (-z.re) : ℝ) : ℂ))
  else z ^ ((1 : ℂ) / 2)

/-- `log10(z) = log(z, 10)`, principal branch; the positive-real case
is written with the real logarithm. -/
noncomputable def clog10 (z : ℂ) : ℂ :=
  if z.im = 0 ∧ 0 < z.re then ((Real.log z.re / Real.log 10 : ℝ) : ℂ)
  else Complex.log z / Complex.log 10

/-- Power with the `zoo` cases of a zero base made explicit. -/
noncomputable def cpowE (z w : ℂ) : Option ℂ :=
  if z = 0 then
    (if w = 0 then some 1
     else if w.im = 0 ∧ 0 < w.re then some 0
     else none)
  else some (z ^ w)

/-- Exact complex evaluation of an expression at `x := v`. -/
noncomputable def evalC : Expr → ℝ → Option ℂ
  | Expr.num q, _ => some ((q : ℚ) : ℂ)
  | Expr.var, v => some ((v : ℝ) : ℂ)
  | Expr.sym _, _ => none
  | Expr.add a b, v =>
    match evalC a v, evalC b v with
    | some za, some zb => some (za + zb)
    | _, _ => none
  | Expr.sub a b, v =>
    match evalC a v, evalC b v with
    | some za, some zb => some (za - zb)
    | _, _ => none
  | Expr.mul a b, v =>
    match evalC a v, evalC b v with
    | some za, some zb => some (za * zb)
    | _, _ => none
  | Expr.div a b, v =>
    match evalC a v, evalC b v with
    | some za, some zb => if zb = 0 then none else some (za / zb)
    | _, _ => none
  | Expr.pow a b, v =>
    match evalC a v, evalC b v with
    | some za, some zb => cpowE za zb
    | _, _ => none
  | Expr.neg a, v =>
    match evalC a v with
    | some za => some (-za)
    | none => none
  | Expr.log10 a, v =>
    match evalC a v with
    | some za => if za = 0 then none else some (clog10 za)
    | none => none
  | Expr.sqrt a, v =>
    match evalC a v with
    | some za => some (csqrt za)
    | none => none

/-- Real-valued evaluation: the value when it is a real number, `none`
when it is complex, `zoo`/`nan`, or not provably real — exactly the
split made by `y.is_real` in the code. -/
noncomputable def evalR (e : Expr) (v : ℝ) : Option ℝ :=
  match evalC e v with
  | some z => if z.im = 0 then some z.re else none
  | none => none

/-! ## Sampling planner (`plot_functions`, app.py lines 168-217) -/

/-- One plotted sample: a real value or the explicit `np.nan`
"undefined" marker. -/
inductive Sample where
  | val (y : ℝ)
  | undef

/-- `float(y) if y.is_real else np.nan` (app.py lines 191-192). -/
noncomputable def samplePoint (e : Expr) (v : ℝ) : Sample :=
  match evalR e v with
  | some y => Sample.val y
  | none => Sample.undef

/-- `np.linspace a b n`: `n` evenly spaced points from `a` to `b`,
inclusive of both endpoints. -/
noncomputable def linspace (a b : ℝ) (n : ℕ) : List ℝ :=
  (List.range n).map (fun i : ℕ => a + (b - a) * (i : ℝ) / ((n : ℝ) - 1))

/-- Python `min` over a nonempty list (`0` as junk value on `[]`). -/
noncomputable def minList : List ℝ → ℝ
  | [] => 0
  | a :: r => r.foldl min a

/-- Python `max` over a nonempty list (`0` as junk value on `[]`). -/
noncomputable def maxList : List ℝ → ℝ
  | [] => 0
  | a :: r => r.foldl max a

/-- Domain selection (app.py lines 176-182): min/max of the
intersection x's padded by the fixed constant 5, or the default
`[-10, 10]` when there are no intersections. -/
noncomputable def plotRange : List (ℝ × ℝ) → ℝ × ℝ
  | [] => (-10, 10)
  | p :: ps =>
    (minList ((p :: ps).map Prod.fst) - 5, maxList ((p :: ps).map Prod.fst) + 5)

/-- The renderable result of one plot request. -/
structure PlotData where
  x_min : ℝ
  x_max : ℝ
  xs : List ℝ
  f1_vals : List Sample
  f2_vals : List Sample
  marks : List (ℝ × ℝ)

/-- `PlotWidget.plot_functions` (app.py lines 168-217): choose the
domain, sample 400 points of each curve with `np.nan` markers at
non-real values, and mark the intersections. -/
noncomputable def plot_functions (e1 e2 : Expr) (intersections : List (ℝ × ℝ)) :
    PlotData :=
  { x_min := (plotRange intersections).1
    x_max := (plotRange intersections).2
    xs := linspace (plotRange intersections).1 (plotRange intersections).2 400
    f1_vals := (linspace (plotRange intersections).1 (plotRange intersections).2 400).map
      (samplePoint e1)
    f2_vals := (linspace (plotRange intersections).1 (plotRange intersections).2 400).map
      (samplePoint e2)
    marks := intersections }

/-! ## Orchestration (`on_solve_clicked`, app.py lines 122-166) -/

/-- A symbolic solution value as returned by `sympy.solve`:
`isRealFlag` models the truthiness of `val.is_real`, and `floatVal`
models `float(val)` — `some q` when the conversion yields the (exact
rational) double `q`, `none` when it raises. -/
structure SymVal where
  isRealFlag : Bool
  floatVal : Option ℚ
  deriving DecidableEq, Repr

/-- The intersection loop (app.py lines 156-160): convert each
surviving root to a float and evaluate `expr_f1` there for the paired
`y`.  Any failure (an unevaluable root, or a `y` that is not a real
number) raises, which aborts the whole computation — there is no
per-root recovery. -/
noncomputable def buildPts (e1 : Expr) : List SymVal → Option (List (ℝ × ℝ))
  | [] => some []
  | v :: rest =>
    match v.floatVal with
    | none => none
    | some q =>
      match evalR e1 ((q : ℚ) : ℝ) with
      | none => none
      | some y =>
        match buildPts e1 rest with
        | none => none
        | some tail => some ((((q : ℚ) : ℝ), y) :: tail)

/-- The externally observable outcome of one click of "Solve + Plot":
an error dialog with the plot cleared (the empty-input branch), an
error dialog with the previous plot kept (the `except` branch), an
informational dialog plus a plot, or a plain plot. -/
inductive Outcome where
  | errorCleared (msg : String)
  | errorKept (msg : String)
  | infoPlot (msg : String) (p : PlotData)
  | plotted (p : PlotData)

/-- `PlotWidget.on_solve_clicked` (app.py lines 122-166).  The parser
and the symbolic solver are passed as parameters: every claim
instantiates `parse` with `string_to_sympy_expr`, while `solver`
stands for the external `sympy.solve` call on `Eq(e1, e2)`
(`Except.error` models a raised solver exception).  The generic
`except Exception` handler produces an error dialog. -/
noncomputable def on_solve_clicked
    (parse : String → Except PErr Expr)
    (solver : Expr → Expr → Except Unit (List SymVal))
    (t1 t2 : String) : Outcome :=
  if pyStrip t1 = "" ∨ pyStrip t2 = "" then
    Outcome.errorCleared "Both function fields must be filled."
  else
    match parse (pyStrip t1) with
    | Except.error _ => Outcome.errorKept "An error occurred"
    | Except.ok e1 =>
      match parse (pyStrip t2) with
      | Except.error _ => Outcome.errorKept "An error occurred"
      | Except.ok e2 =>
        match solver e1 e2 with
        | Except.error _ => Outcome.errorKept "An error occurred"
        | Except.ok sols =>
          let reals := sols.filter (fun v => v.isRealFlag)
          if reals = [] then
            Outcome.infoPlot "No real intersection found. Plotting both functions anyway."
              (plot_functions e1 e2 [])
          else
            match buildPts e1 reals with
            | none => Outcome.errorKept "An error occurred"
            | some pts => Outcome.plotted (plot_functions e1 e2 pts)

/-! ## Auxiliary definitions used by the claim statements -/

/-- A bound token that is not an auto-created symbol. -/
def ptokClean : PTok → Bool
  | PTok.sym _ => false
  | _ => true

/-- A `NAME` token that can only resolve to `x` and numbers: the three
`local_dict` keys, or a longer name built from `x` and digits only. -/
def goodName (s : String) : Bool :=
  if s = "x" then true
  else if s = "log10" then true
  else if s = "sqrt" then true
  else if 1 < s.toList.length then s.toList.all (fun c => c == 'x' || c.isDigit)
  else false

/-- A raw token whose binding cannot introduce a symbol other than `x`. -/
def goodTok : RTok → Bool
  | RTok.name s => goodName s
  | _ => true

/-- The double closest to `√2`, i.e. the exact rational value of the
Python float `float(sqrt(2)) = 1.4142135623730951`. -/
def fl2 : ℚ := 6369051672525773 / 4503599627370496

/-- The expression `parse_expr` produces for the input `"sqrtx"`:
the scan accepts it (removing the substring `sqrt` leaves `x`), the
tokenizer reads the single name `sqrtx`, which is not in `local_dict`,
so `split_symbols` turns it into `s*q*r*t*x` with four auto-created
free symbols. -/
def sqrtxExpr : Expr :=
  Expr.mul
    (Expr.mul (Expr.mul (Expr.mul (Expr.sym 's') (Expr.sym 'q')) (Expr.sym 'r'))
      (Expr.sym 't'))
    Expr.var

/-! ## Helper lemmas -/

/-- A string made entirely of whitespace strips to the empty string. -/
theorem pyStrip_of_allSpace (s : String) (h : s.toList.all pySpace = true) :
    pyStrip s = "" := by
  unfold pyStrip
  have h1 : s.toList.dropWhile pySpace = [] := by
    rw [List.dropWhile_eq_nil_iff]
    intro x hx
    exact List.all_eq_true.mp h x hx
  rw [h1]
  rfl

/-! ## Claim C2 (corrected) -/

/-- Claim C2, counterexample: the input `"x^2"` contains the character
`^`, which is outside the allowed class and survives the
`log10`/`sqrt` removal, yet `parse` succeeds — because the code
rewrites `^` to `**` before the scan runs. -/
theorem C2_cex :
    ('^' ∈ (stripFns "x^2").toList) ∧ safeChar '^' = false ∧
      string_to_sympy_expr "x^2" = Except.ok (Expr.pow Expr.var (Expr.num 2)) := by
  refine ⟨by decide, by decide, by decide⟩

/-- Claim C2, amended: after the `^` → `**` rewrite, any input whose
remainder (once the `log10` and `sqrt` substrings are removed)
contains a disallowed character fails with `InvalidCharacterError`
naming the first such character and carrying the rewritten text; the
scan runs before structural parsing, so such inputs never reach it. -/
theorem C2_thm (s : String) (c : Char)
    (h : firstBad (stripFns (caretFix s)).toList = some c) :
    string_to_sympy_expr s = Except.error (PErr.invalidChar c (caretFix s)) := by
  unfold string_to_sympy_expr
  rw [h]

/-- Claim C2, witness: the input `"x&"` fails with the invalid
character `&`. -/
theorem C2_witness :
    string_to_sympy_expr "x&" =
      Except.error (PErr.invalidChar '&' (caretFix "x&")) :=
  C2_thm "x&" '&' (by decide)

/-! ## Claim C8 (corrected) -/

/-- Claim C8, counterexample: the outcome for an empty first field
equals the outcome for an empty second field — both are the same
fixed-message error dialog, so the error cannot be naming which
field(s) are empty. -/
theorem C8_cex :
    on_solve_clicked string_to_sympy_expr (fun _ _ => Except.error ()) "" "x" =
        Outcome.errorCleared "Both function fields must be filled." ∧
      on_solve_clicked string_to_sympy_expr (fun _ _ => Except.error ()) "x" "" =
        Outcome.errorCleared "Both function fields must be filled." ∧
      on_solve_clicked string_to_sympy_expr (fun _ _ => Except.error ()) "" "x" =
        on_solve_clicked string_to_sympy_expr (fun _ _ => Except.error ()) "x" "" := by
  refine ⟨?_, ?_, ?_⟩
  · unfold on_solve_clicked
    rw [if_pos (Or.inl (by decide))]
  · unfold on_solve_clicked
    rw [if_pos (Or.inr (by decide))]
  · unfold on_solve_clicked
    rw [if_pos (Or.inl (by decide)), if_pos (Or.inr (by decide))]

/-- Claim C8, amended: if either stripped input is empty, the request
fails — before any parsing or solving (the result does not depend on
the parser or solver at all) — with the fixed error dialog
"Both function fields must be filled.", which does not name which
field(s) are empty. -/
theorem C8_thm (parse : String → Except PErr Expr)
    (solver : Expr → Expr → Except Unit (List SymVal)) (t1 t2 : String)
    (h : pyStrip t1 = "" ∨ pyStrip t2 = "") :
    on_solve_clicked parse solver t1 t2 =
      Outcome.errorCleared "Both function fields must be filled." := by
  unfold on_solve_clicked
  rw [if_pos h]

/-- Claim C8, witness: an empty first field with a nonempty second
field produces the fixed empty-input error dialog. -/
theorem C8_witness :
    on_solve_clicked string_to_sympy_expr (fun _ _ => Except.error ()) "" "x" =
      Outcome.errorCleared "Both function fields must be filled." :=
  C8_thm string_to_sympy_expr (fun _ _ => Except.error ()) "" "x"
    (Or.inl (by decide))

/-! ## Claim C10 (confirmed) -/

/-- Claim C10: an input consisting entirely of whitespace — in either
field — is treated exactly like an empty input: the request fails with
the empty-input error, and the outcome equals the outcome with that
field replaced by the empty string, because each input is stripped
before the emptiness check and before parsing. -/
theorem C10_thm (parse : String → Except PErr Expr)
    (solver : Expr → Expr → Except Unit (List SymVal)) (t1 t2 : String)
    (h : t1.toList.all pySpace = true ∨ t2.toList.all pySpace = true) :
    on_solve_clicked parse solver t1 t2 =
        Outcome.errorCleared "Both function fields must be filled." ∧
      (t1.toList.all pySpace = true →
        on_solve_clicked parse solver t1 t2 = on_solve_clicked parse solver "" t2) ∧
      (t2.toList.all pySpace = true →
        on_solve_clicked parse solver t1 t2 = on_solve_clicked parse solver t1 "") := by
  refine ⟨?_, ?_, ?_⟩
  · unfold on_solve_clicked
    rcases h with h | h
    · rw [if_pos (Or.inl (pyStrip_of_allSpace t1 h))]
    · rw [if_pos (Or.inr (pyStrip_of_allSpace t2 h))]
  · intro h1
    unfold on_solve_clicked
    rw [if_pos (Or.inl (pyStrip_of_allSpace t1 h1)), if_pos (Or.inl (by decide))]
  · intro h2
    unfold on_solve_clicked
    rw [if_pos (Or.inr (pyStrip_of_allSpace t2 h2)), if_pos (Or.inr (by decide))]

/-- Claim C10, witness: a three-space field is rejected exactly like an
empty one, whether it is the first field (with `"x"` in the second) or
the second field (with `"x"` in the first). -/
theorem C10_witness :
    on_solve_clicked string_to_sympy_expr (fun _ _ => Except.error ()) "   " "x" =
        Outcome.errorCleared "Both function fields must be filled." ∧
      on_solve_clicked string_to_sympy_expr (fun _ _ => Except.error ()) "   " "x" =
        on_solve_clicked string_to_sympy_expr (fun _ _ => Except.error ()) "" "x" ∧
      on_solve_clicked string_to_sympy_expr (fun _ _ => Except.error ()) "x" "   " =
        Outcome.errorCleared "Both function fields must be filled." ∧
      on_solve_clicked string_to_sympy_expr (fun _ _ => Except.error ()) "x" "   " =
        on_solve_clicked string_to_sympy_expr (fun _ _ => Except.error ()) "x" "" := by
  have h1 := C10_thm string_to_sympy_expr (fun _ _ => Except.error ()) "   " "x"
    (Or.inl (by decide))
  have h2 := C10_thm string_to_sympy_expr (fun _ _ => Except.error ()) "x" "   "
    (Or.inr (by decide))
  exact ⟨h1.1, h1.2.1 (by decide), h2.1, h2.2.2 (by decide)⟩

/-! ## Claim C9 (confirmed) -/

/-- Claim C9: `parse("5x")` and `parse("5*x")` produce the same
expression `5*x` (implicit multiplication), and it evaluates to `5·v`
at every real `v`, so the two parses are semantically equivalent at
every real `x`. -/
theorem C9_thm :
    string_to_sympy_expr "5x" = Except.ok (Expr.mul (Expr.num 5) Expr.var) ∧
      string_to_sympy_expr "5*x" = Except.ok (Expr.mul (Expr.num 5) Expr.var) ∧
      ∀ v : ℝ, evalR (Expr.mul (Expr.num 5) Expr.var) v = some (5 * v) := by
  refine ⟨by decide, by decide, ?_⟩
  intro v
  have hz : ((5 : ℚ) : ℂ) * ((v : ℝ) : ℂ) = (((5 * v : ℝ)) : ℂ) := by
    push_cast
    ring
  simp only [evalR, evalC, hz]
  simp

/-! ## Claim C1 (corrected) -/

/-- Claim C1, counterexample: with a solver that raises (models a
`sympy.solve` failure), the outcome is the generic hard error
dialog, not the "no real intersection found" informational signal
with both curves plotted. -/
theorem C1_cex :
    on_solve_clicked string_to_sympy_expr (fun _ _ => Except.error ()) "x" "x" =
        Outcome.errorKept "An error occurred" ∧
      on_solve_clicked string_to_sympy_expr (fun _ _ => Except.error ()) "x" "x" ≠
        Outcome.infoPlot "No real intersection found. Plotting both functions anyway."
          (plot_functions Expr.var Expr.var []) := by
  have h : on_solve_clicked string_to_sympy_expr (fun _ _ => Except.error ()) "x" "x" =
      Outcome.errorKept "An error occurred" := by
    unfold on_solve_clicked
    rw [if_neg (by decide)]
    have hx : string_to_sympy_expr (pyStrip "x") = Except.ok Expr.var := by decide
    rw [hx]
  refine ⟨h, ?_⟩
  rw [h]
  intro hc
  exact Outcome.noConfusion hc

/-- Claim C1, amended: when the symbolic solve step raises
(`SolveError`), the request does not degrade to an empty root list
with an informational signal — the exception reaches the generic
handler and the outcome is a hard error dialog with no plot drawn. -/
theorem C1_thm (solver : Expr → Expr → Except Unit (List SymVal))
    (t1 t2 : String) (e1 e2 : Expr)
    (h1 : pyStrip t1 ≠ "") (h2 : pyStrip t2 ≠ "")
    (hp1 : string_to_sympy_expr (pyStrip t1) = Except.ok e1)
    (hp2 : string_to_sympy_expr (pyStrip t2) = Except.ok e2)
    (hs : solver e1 e2 = Except.error ()) :
    on_solve_clicked string_to_sympy_expr solver t1 t2 =
      Outcome.errorKept "An error occurred" := by
  unfold on_solve_clicked
  rw [if_neg (by
    intro hor
    rcases hor with hh | hh
    · exact h1 hh
    · exact h2 hh)]
  simp only [hp1, hp2, hs]

/-- Claim C1, witness: the amended theorem at the concrete inputs
`f1 = f2 = "x"` with a raising solver. -/
theorem C1_witness :
    on_solve_clicked string_to_sympy_expr (fun _ _ => Except.error ()) "x" "x" =
      Outcome.errorKept "An error occurred" :=
  C1_thm (fun _ _ => Except.error ()) "x" "x" Expr.var Expr.var
    (by decide) (by decide) (by decide) (by decide) rfl

/-! ## Claim C7 (corrected) -/

/-- Claim C7, counterexample: a solver result with two real roots, the
first of which fails float conversion, aborts the whole request with
the generic error dialog; the second root alone would have converted
and produced a plot, but the code does not skip and continue. -/
theorem C7_cex :
    on_solve_clicked string_to_sympy_expr
        (fun _ _ => Except.ok [⟨true, none⟩, ⟨true, some 1⟩]) "1" "1" =
        Outcome.errorKept "An error occurred" ∧
      buildPts (Expr.num 1) [⟨true, some 1⟩] =
        some [(((1 : ℚ) : ℝ), ((1 : ℚ) : ℝ))] ∧
      Outcome.errorKept "An error occurred" ≠
        Outcome.plotted (plot_functions (Expr.num 1) (Expr.num 1)
          [(((1 : ℚ) : ℝ), ((1 : ℚ) : ℝ))]) := by
  refine ⟨?_, ?_, ?_⟩
  · unfold on_solve_clicked
    rw [if_neg (by decide)]
    have hx : string_to_sympy_expr (pyStrip "1") = Except.ok (Expr.num 1) := by decide
    rw [hx]
    rfl
  · simp [buildPts, evalR, evalC]
  · intro hc
    exact Outcome.noConfusion hc

/-- Claim C7, amended: a float-conversion failure on any root is fatal
to the whole conversion loop — the request aborts instead of skipping
that root and continuing with the rest. -/
theorem C7_thm (e1 : Expr) (pre : List SymVal) (v : SymVal) (post : List SymVal)
    (h : v.floatVal = none) :
    buildPts e1 (pre ++ v :: post) = none := by
  induction pre with
  | nil =>
    rw [List.nil_append]
    simp only [buildPts]
    rw [h]
  | cons u pre ih =>
    rw [List.cons_append]
    simp only [buildPts]
    cases hu : u.floatVal with
    | none => rfl
    | some q =>
      cases he : evalR e1 ((q : ℚ) : ℝ) with
      | none => simp only [he]
      | some y => simp only [he, ih]

/-- Claim C7, witness: the amended theorem at a concrete two-root
list whose first root fails conversion. -/
theorem C7_witness :
    buildPts (Expr.num 1) [⟨true, none⟩, ⟨true, some 1⟩] = none :=
  C7_thm (Expr.num 1) [] ⟨true, none⟩ [⟨true, some 1⟩] rfl

/-! ## Claim C4 (corrected) -/

/-- Claim C4, counterexample: for `e1 = x*x` and `e2 = 2`, the
symbolic root `√2` is real, and `float(√2)` is the rational double
`fl2 = 1.4142135623730951`.  The produced intersection carries
`y = fl2·fl2`, which is the value of `e1` at the stored x — but the
value of `e2` there is `2`, and `fl2·fl2 ≠ 2` (no rational squares to
2), so `y` does not equal expression 2 evaluated at the root's x. -/
theorem C4_cex :
    string_to_sympy_expr "x*x" = Except.ok (Expr.mul Expr.var Expr.var) ∧
      string_to_sympy_expr "2" = Except.ok (Expr.num 2) ∧
      buildPts (Expr.mul Expr.var Expr.var) [⟨true, some fl2⟩] =
        some [(((fl2 : ℚ) : ℝ), ((fl2 * fl2 : ℚ) : ℝ))] ∧
      evalR (Expr.num 2) ((fl2 : ℚ) : ℝ) = some ((2 : ℚ) : ℝ) ∧
      ((fl2 * fl2 : ℚ) : ℝ) ≠ ((2 : ℚ) : ℝ) := by
  refine ⟨by decide, by decide, ?_, ?_, ?_⟩
  · have hmul : ((((fl2 : ℚ) : ℝ) : ℂ)) * ((((fl2 : ℚ) : ℝ) : ℂ)) =
        (((fl2 * fl2 : ℚ) : ℝ) : ℂ) := by
      push_cast
      ring
    simp only [buildPts, evalR, evalC, hmul]
    simp
  · simp [evalR, evalC]
  · intro hc
    have : (fl2 * fl2 : ℚ) = 2 := by exact_mod_cast hc
    exact absurd this (by norm_num [fl2])

/-- Claim C4, amended: for every intersection point the code produces,
`y` is the value of expression 1 evaluated at the point's (float) x;
it need not equal expression 2 there, because the stored x is only the
float approximation of the symbolic root. -/
theorem C4_thm (e1 : Expr) (vals : List SymVal) (pts : List (ℝ × ℝ))
    (h : buildPts e1 vals = some pts) :
    ∀ p ∈ pts, evalR e1 p.1 = some p.2 := by
  induction vals generalizing pts with
  | nil =>
    simp only [buildPts] at h
    obtain rfl : ([] : List (ℝ × ℝ)) = pts := Option.some.inj h
    intro p hp
    exact absurd hp (by simp)
  | cons v rest ih =>
    simp only [buildPts] at h
    cases hu : v.floatVal with
    | none =>
      rw [hu] at h
      exact absurd h (by simp)
    | some q =>
      rw [hu] at h
      simp only [] at h
      cases he : evalR e1 ((q : ℚ) : ℝ) with
      | none =>
        rw [he] at h
        exact absurd h (by simp)
      | some y =>
        rw [he] at h
        simp only [] at h
        cases hb : buildPts e1 rest with
        | none =>
          rw [hb] at h
          exact absurd h (by simp)
        | some tail =>
          rw [hb] at h
          simp only [] at h
          obtain rfl : (((q : ℚ) : ℝ), y) :: tail = pts := Option.some.inj h
          intro p hp
          rcases List.mem_cons.mp hp with hp1 | hp2
          · rw [hp1]
            exact he
          · exact ih tail hb p hp2

/-- Claim C4, witness: the amended theorem at the constant expression
`2` with the single (exactly representable) root `0`. -/
theorem C4_witness :
    buildPts (Expr.num 2) [⟨true, some 0⟩] =
        some [(((0 : ℚ) : ℝ), ((2 : ℚ) : ℝ))] ∧
      evalR (Expr.num 2) ((0 : ℚ) : ℝ) = some ((2 : ℚ) : ℝ) := by
  have hb : buildPts (Expr.num 2) [⟨true, some 0⟩] =
      some [(((0 : ℚ) : ℝ), ((2 : ℚ) : ℝ))] := by
    simp [buildPts, evalR, evalC]
  exact ⟨hb, C4_thm (Expr.num 2) [⟨true, some 0⟩] _ hb
    (((0 : ℚ) : ℝ), ((2 : ℚ) : ℝ)) (by simp)⟩

/-! ## Claim C6 (confirmed) -/

/-- Claim C6: a sample point where the expression's value is not real
is recorded as the explicit undefined marker — not a real value and in
particular not zero — and sampling is a total function (evaluation-time
non-reality never raises). -/
theorem C6_thm (e : Expr) (v : ℝ) (h : evalR e v = none) :
    samplePoint e v = Sample.undef ∧ samplePoint e v ≠ Sample.val 0 ∧
      ∀ y : ℝ, samplePoint e v ≠ Sample.val y := by
  have hs : samplePoint e v = Sample.undef := by
    unfold samplePoint
    rw [h]
  refine ⟨hs, ?_, ?_⟩
  · rw [hs]
    intro hc
    exact Sample.noConfusion hc
  · intro y
    rw [hs]
    intro hc
    exact Sample.noConfusion hc

/-- Claim C6, witness: `sqrt(x)` at the sample `x = -1` evaluates to
the non-real `i`, so the sample is the undefined marker. -/
theorem C6_witness :
    evalR (Expr.sqrt Expr.var) (-1) = none ∧
      samplePoint (Expr.sqrt Expr.var) (-1) = Sample.undef := by
  have h : evalR (Expr.sqrt Expr.var) (-1) = none := by
    simp only [evalR, evalC, csqrt]
    norm_num [Complex.ext_iff, Complex.mul_im, Complex.mul_re]
  exact ⟨h, (C6_thm (Expr.sqrt Expr.var) (-1) h).1⟩

/-! ## Claim C5 (confirmed) -/

/-- Index formula for `np.linspace`. -/
theorem linspace_get (a b : ℝ) (n i : ℕ) (h : i < n) :
    (linspace a b n).get? i = some (a + (b - a) * i / ((n : ℝ) - 1)) := by
  unfold linspace
  rw [List.get?_eq_getElem?, List.getElem?_map, List.getElem?_range h]
  rfl

/-- Claim C5: the sample domain is exactly
`[min(root.x) - 5, max(root.x) + 5]` for a non-empty root list and
exactly `[-10, 10]` for an empty one, and each curve is sampled at a
fixed 400 evenly spaced points inclusive of both endpoints. -/
theorem C5_thm (e1 e2 : Expr) (pts : List (ℝ × ℝ)) :
    (pts = [] → (plot_functions e1 e2 pts).x_min = -10 ∧
      (plot_functions e1 e2 pts).x_max = 10) ∧
    (pts ≠ [] → (plot_functions e1 e2 pts).x_min = minList (pts.map Prod.fst) - 5 ∧
      (plot_functions e1 e2 pts).x_max = maxList (pts.map Prod.fst) + 5) ∧
    (plot_functions e1 e2 pts).xs.length = 400 ∧
    (plot_functions e1 e2 pts).f1_vals =
      (plot_functions e1 e2 pts).xs.map (samplePoint e1) ∧
    (plot_functions e1 e2 pts).f2_vals =
      (plot_functions e1 e2 pts).xs.map (samplePoint e2) ∧
    (∀ i : ℕ, i < 400 → (plot_functions e1 e2 pts).xs.get? i =
      some ((plot_functions e1 e2 pts).x_min +
        ((plot_functions e1 e2 pts).x_max - (plot_functions e1 e2 pts).x_min) *
          i / 399)) ∧
    (plot_functions e1 e2 pts).xs.get? 0 = some (plot_functions e1 e2 pts).x_min ∧
    (plot_functions e1 e2 pts).xs.get? 399 =
      some (plot_functions e1 e2 pts).x_max := by
  refine ⟨?_, ?_, ?_, rfl, rfl, ?_, ?_, ?_⟩
  · intro h
    subst h
    exact ⟨rfl, rfl⟩
  · intro h
    cases pts with
    | nil => exact absurd rfl h
    | cons p ps => exact ⟨rfl, rfl⟩
  · have hx : (plot_functions e1 e2 pts).xs =
        linspace (plot_functions e1 e2 pts).x_min
          (plot_functions e1 e2 pts).x_max 400 := rfl
    rw [hx]
    unfold linspace
    rw [List.length_map, List.length_range]
  · intro i hi
    have hx : (plot_functions e1 e2 pts).xs =
        linspace (plot_functions e1 e2 pts).x_min
          (plot_functions e1 e2 pts).x_max 400 := rfl
    rw [hx, linspace_get _ _ _ _ hi]
    norm_num
  · have hx : (plot_functions e1 e2 pts).xs =
        linspace (plot_functions e1 e2 pts).x_min
          (plot_functions e1 e2 pts).x_max 400 := rfl
    rw [hx, linspace_get _ _ _ _ (by norm_num : (0 : ℕ) < 400)]
    norm_num
  · have hx : (plot_functions e1 e2 pts).xs =
        linspace (plot_functions e1 e2 pts).x_min
          (plot_functions e1 e2 pts).x_max 400 := rfl
    rw [hx, linspace_get _ _ _ _ (by norm_num : (399 : ℕ) < 400)]
    congr 1
    push_cast
    have h399 : (400 : ℝ) - 1 = 399 := by norm_num
    rw [h399, mul_div_assoc, div_self (by norm_num : (399 : ℝ) ≠ 0), mul_one]
    ring

/-- Claim C5, witness: one root at `x = 1` gives the domain
`[-4, 6]` with 400 samples. -/
theorem C5_witness :
    (plot_functions Expr.var Expr.var [((1 : ℝ), (1 : ℝ))]).x_min = -4 ∧
      (plot_functions Expr.var Expr.var [((1 : ℝ), (1 : ℝ))]).x_max = 6 ∧
      (plot_functions Expr.var Expr.var [((1 : ℝ), (1 : ℝ))]).xs.length = 400 := by
  have h := C5_thm Expr.var Expr.var [((1 : ℝ), (1 : ℝ))]
  have h2 := h.2.1 (by simp)
  refine ⟨?_, ?_, h.2.2.1⟩
  · rw [h2.1]
    norm_num [minList]
  · rw [h2.2]
    norm_num [maxList]

/-! ## Claim C3: helper lemmas for the no-extra-symbols invariant -/

/-- Components of an equation between pairs. -/
theorem pairEq {α β : Type _} {a c : α} {b d : β} (h : (a, b) = (c, d)) :
    a = c ∧ b = d :=
  ⟨congrArg Prod.fst h, congrArg Prod.snd h⟩

/-- Splitting a name made only of `x` and digits produces no
auto-created symbols. -/
theorem splitChars_clean (f : ℕ) :
    ∀ cs : List Char, cs.all (fun c => c == 'x' || c.isDigit) = true →
      (splitChars f cs).all ptokClean = true := by
  induction f with
  | zero => intro cs _; rfl
  | succ f ih =>
    intro cs h
    cases cs with
    | nil => rfl
    | cons c rest =>
      have hc : (c == 'x' || c.isDigit) = true :=
        List.all_eq_true.mp h c (List.mem_cons_self c rest)
      have hrest : rest.all (fun c => c == 'x' || c.isDigit) = true := by
        rw [List.all_eq_true]
        intro x hx
        exact List.all_eq_true.mp h x (List.mem_cons_of_mem c hx)
      by_cases hx : c = 'x'
      · simp only [splitChars, if_pos hx, List.all_cons]
        rw [Bool.and_eq_true]
        exact ⟨rfl, ih rest hrest⟩
      · have hd : c.isDigit = true := by
          have hor : c = 'x' ∨ c.isDigit = true := by simpa using hc
          rcases hor with h1 | h1
          · exact absurd h1 hx
          · exact h1
        simp only [splitChars, if_neg hx, if_pos hd]
        rw [List.all_cons, Bool.and_eq_true]
        refine ⟨rfl, ih _ ?_⟩
        rw [List.all_eq_true]
        intro y hy
        exact List.all_eq_true.mp hrest y ((List.dropWhile_sublist _).subset hy)

/-- Binding a good name produces no auto-created symbols. -/
theorem bindName_clean (s : String) (h : goodName s = true) :
    (bindName s).all ptokClean = true := by
  unfold bindName
  unfold goodName at h
  by_cases h1 : s = "x"
  · rw [if_pos h1]
    rfl
  · rw [if_neg h1]
    rw [if_neg h1] at h
    by_cases h2 : s = "log10"
    · rw [if_pos h2]
      rfl
    · rw [if_neg h2]
      rw [if_neg h2] at h
      by_cases h3 : s = "sqrt"
      · rw [if_pos h3]
        rfl
      · rw [if_neg h3]
        rw [if_neg h3] at h
        by_cases h4 : 1 < s.toList.length
        · rw [if_pos h4] at h
          cases hcs : s.toList with
          | nil => rfl
          | cons c cs2 =>
            cases cs2 with
            | nil =>
              rw [hcs] at h4
              simp at h4
            | cons c2 cs3 =>
              rw [hcs] at h
              exact splitChars_clean _ _ h
        · rw [if_neg h4] at h
          exact absurd h (by simp)

/-- Binding a good raw token produces no auto-created symbols. -/
theorem bindTok_clean (t : RTok) (h : goodTok t = true) :
    (bindTok t).all ptokClean = true := by
  cases t with
  | name s => exact bindName_clean s h
  | num q => rfl
  | plus => rfl
  | minus => rfl
  | star => rfl
  | slash => rfl
  | dstar => rfl
  | lparen => rfl
  | rparen => rfl

/-- Binding a stream of good raw tokens produces no auto-created
symbols. -/
theorem bindAll_clean (rts : List RTok) (h : rts.all goodTok = true) :
    (bindAll rts).all ptokClean = true := by
  induction rts with
  | nil => rfl
  | cons t rest ih =>
    rw [List.all_cons, Bool.and_eq_true] at h
    unfold bindAll
    rw [List.map_cons, List.flatten_cons, List.all_append, Bool.and_eq_true]
    exact ⟨bindTok_clean t h.1, ih h.2⟩

/-- Implicit multiplication inserts only `*` tokens. -/
theorem insertMul_clean (ts : List PTok) (h : ts.all ptokClean = true) :
    (insertMul ts).all ptokClean = true := by
  induction ts with
  | nil => rfl
  | cons t1 rest ih =>
    cases rest with
    | nil => simpa [insertMul] using h
    | cons t2 rest2 =>
      have h1 : ptokClean t1 = true ∧ (t2 :: rest2).all ptokClean = true := by
        simpa using h
      have ih2 := ih h1.2
      by_cases hv : (valEnd t1 && valStart t2) = true
      · simp only [insertMul, if_pos hv]
        simp [h1.1, ih2, show ptokClean PTok.star = true from rfl]
      · simp only [insertMul, if_neg hv]
        simp [h1.1, ih2]

/-- Parsing a token stream without auto-created symbol tokens yields an
expression without free symbols other than `x`, with the remaining
tokens also symbol-free. -/
theorem parseL_clean (f : ℕ) :
    ∀ (lv : Lv) (acc : Expr) (ts : List PTok) (e : Expr) (rest : List PTok),
      parseL f lv acc ts = some (e, rest) → noSyms acc = true →
      ts.all ptokClean = true → noSyms e = true ∧ rest.all ptokClean = true := by
  induction f with
  | zero =>
    intro lv acc ts e rest h _ _
    exact absurd h (by simp [parseL])
  | succ f ih =>
    intro lv acc ts e rest h hacc hts
    cases lv with
    | e =>
      simp only [parseL] at h
      split at h
      next e0 r0 heq =>
        have h1 := ih Lv.t (Expr.num 0) ts e0 r0 heq rfl hts
        exact ih Lv.eloop e0 r0 e rest h h1.1 h1.2
      next => exact absurd h (by simp)
    | eloop =>
      simp only [parseL] at h
      split at h
      next =>
        obtain ⟨rfl, rfl⟩ := pairEq (Option.some.inj h)
        exact ⟨hacc, rfl⟩
      next t r =>
        rw [List.all_cons, Bool.and_eq_true] at hts
        split at h
        next hp =>
          split at h
          next e2 r2 heq =>
            have h1 := ih Lv.t (Expr.num 0) r e2 r2 heq rfl hts.2
            have hadd : noSyms (Expr.add acc e2) = true := by
              simp only [noSyms, Bool.and_eq_true]
              exact ⟨hacc, h1.1⟩
            exact ih Lv.eloop (Expr.add acc e2) r2 e rest h hadd h1.2
          next => exact absurd h (by simp)
        next hp =>
          split at h
          next hm =>
            split at h
            next e2 r2 heq =>
              have h1 := ih Lv.t (Expr.num 0) r e2 r2 heq rfl hts.2
              have hsub : noSyms (Expr.sub acc e2) = true := by
                simp only [noSyms, Bool.and_eq_true]
                exact ⟨hacc, h1.1⟩
              exact ih Lv.eloop (Expr.sub acc e2) r2 e rest h hsub h1.2
            next => exact absurd h (by simp)
          next hm =>
            obtain ⟨rfl, rfl⟩ := pairEq (Option.some.inj h)
            refine ⟨hacc, ?_⟩
            rw [List.all_cons, Bool.and_eq_true]
            exact ⟨hts.1, hts.2⟩
    | t =>
      simp only [parseL] at h
      split at h
      next e0 r0 heq =>
        have h1 := ih Lv.u (Expr.num 0) ts e0 r0 heq rfl hts
        exact ih Lv.tloop e0 r0 e rest h h1.1 h1.2
      next => exact absurd h (by simp)
    | tloop =>
      simp only [parseL] at h
      split at h
      next =>
        obtain ⟨rfl, rfl⟩ := pairEq (Option.some.inj h)
        exact ⟨hacc, rfl⟩
      next t r =>
        rw [List.all_cons, Bool.and_eq_true] at hts
        split at h
        next hp =>
          split at h
          next e2 r2 heq =>
            have h1 := ih Lv.u (Expr.num 0) r e2 r2 heq rfl hts.2
            have hmul : noSyms (Expr.mul acc e2) = true := by
              simp only [noSyms, Bool.and_eq_true]
              exact ⟨hacc, h1.1⟩
            exact ih Lv.tloop (Expr.mul acc e2) r2 e rest h hmul h1.2
          next => exact absurd h (by simp)
        next hp =>
          split at h
          next hm =>
            split at h
            next e2 r2 heq =>
              have h1 := ih Lv.u (Expr.num 0) r e2 r2 heq rfl hts.2
              have hdiv : noSyms (Expr.div acc e2) = true := by
                simp only [noSyms, Bool.and_eq_true]
                exact ⟨hacc, h1.1⟩
              exact ih Lv.tloop (Expr.div acc e2) r2 e rest h hdiv h1.2
            next => exact absurd h (by simp)
          next hm =>
            obtain ⟨rfl, rfl⟩ := pairEq (Option.some.inj h)
            refine ⟨hacc, ?_⟩
            rw [List.all_cons, Bool.and_eq_true]
            exact ⟨hts.1, hts.2⟩
    | u =>
      simp only [parseL] at h
      split at h
      next => exact ih Lv.p (Expr.num 0) [] e rest h rfl hts
      next t r =>
        rw [List.all_cons, Bool.and_eq_true] at hts
        split at h
        next hp => exact ih Lv.u (Expr.num 0) r e rest h rfl hts.2
        next hp =>
          split at h
          next hm =>
            split at h
            next e2 r2 heq =>
              obtain ⟨rfl, rfl⟩ := pairEq (Option.some.inj h)
              have h1 := ih Lv.u (Expr.num 0) r e2 r2 heq rfl hts.2
              exact ⟨h1.1, h1.2⟩
            next => exact absurd h (by simp)
          next hm =>
            have hts' : (t :: r).all ptokClean = true := by
              rw [List.all_cons, Bool.and_eq_true]
              exact ⟨hts.1, hts.2⟩
            exact ih Lv.p (Expr.num 0) (t :: r) e rest h rfl hts'
    | p =>
      simp only [parseL] at h
      split at h
      next => exact absurd h (by simp)
      next e0 r0 heq =>
        have h1 := ih Lv.a (Expr.num 0) ts e0 r0 heq rfl hts
        split at h
        next =>
          obtain ⟨rfl, rfl⟩ := pairEq (Option.some.inj h)
          exact ⟨h1.1, rfl⟩
        next t r2 =>
          have ht2 : ptokClean t = true ∧ r2.all ptokClean = true := by
            have h12 := h1.2
            rw [List.all_cons, Bool.and_eq_true] at h12
            exact h12
          split at h
          next hd =>
            split at h
            next b r3 heq2 =>
              have h2 := ih Lv.u (Expr.num 0) r2 b r3 heq2 rfl ht2.2
              obtain ⟨rfl, rfl⟩ := pairEq (Option.some.inj h)
              refine ⟨?_, h2.2⟩
              simp only [noSyms, Bool.and_eq_true]
              exact ⟨h1.1, h2.1⟩
            next => exact absurd h (by simp)
          next hd =>
            obtain ⟨rfl, rfl⟩ := pairEq (Option.some.inj h)
            refine ⟨h1.1, ?_⟩
            rw [List.all_cons, Bool.and_eq_true]
            exact ⟨ht2.1, ht2.2⟩
    | a =>
      simp only [parseL] at h
      split at h
      next q r =>
        obtain ⟨rfl, rfl⟩ := pairEq (Option.some.inj h)
        refine ⟨rfl, ?_⟩
        have h12 := hts
        rw [List.all_cons, Bool.and_eq_true] at h12
        exact h12.2
      next r =>
        obtain ⟨rfl, rfl⟩ := pairEq (Option.some.inj h)
        refine ⟨rfl, ?_⟩
        have h12 := hts
        rw [List.all_cons, Bool.and_eq_true] at h12
        exact h12.2
      next c r =>
        rw [List.all_cons, Bool.and_eq_true] at hts
        exact absurd hts.1 (by simp [ptokClean])
      next r =>
        have hr : r.all ptokClean = true := by
          rw [List.all_cons, Bool.and_eq_true] at hts
          have h2 := hts.2
          rw [List.all_cons, Bool.and_eq_true] at h2
          exact h2.2
        split at h
        next e2 r2 heq =>
          obtain ⟨rfl, rfl⟩ := pairEq (Option.some.inj h)
          have h1 := ih Lv.e (Expr.num 0) r e2 (PTok.rparen :: r2) heq rfl hr
          refine ⟨h1.1, ?_⟩
          have h12 := h1.2
          rw [List.all_cons, Bool.and_eq_true] at h12
          exact h12.2
        next => exact absurd h (by simp)
      next r =>
        have hr : r.all ptokClean = true := by
          rw [List.all_cons, Bool.and_eq_true] at hts
          have h2 := hts.2
          rw [List.all_cons, Bool.and_eq_true] at h2
          exact h2.2
        split at h
        next e2 r2 heq =>
          obtain ⟨rfl, rfl⟩ := pairEq (Option.some.inj h)
          have h1 := ih Lv.e (Expr.num 0) r e2 (PTok.rparen :: r2) heq rfl hr
          refine ⟨h1.1, ?_⟩
          have h12 := h1.2
          rw [List.all_cons, Bool.and_eq_true] at h12
          exact h12.2
        next => exact absurd h (by simp)
      next r =>
        have hr : r.all ptokClean = true := by
          rw [List.all_cons, Bool.and_eq_true] at hts
          exact hts.2
        split at h
        next e2 r2 heq =>
          obtain ⟨rfl, rfl⟩ := pairEq (Option.some.inj h)
          have h1 := ih Lv.e (Expr.num 0) r e2 (PTok.rparen :: r2) heq rfl hr
          refine ⟨h1.1, ?_⟩
          have h12 := h1.2
          rw [List.all_cons, Bool.and_eq_true] at h12
          exact h12.2
        next => exact absurd h (by simp)
      next => exact absurd h (by simp)

/-! ## Claim C3 (corrected) -/

/-- Claim C3, counterexample: the input `"sqrtx"` is accepted by
`parse` (removing the `sqrt` substring leaves only `x`, so the scan
passes), but the resulting expression is `s*q*r*t*x`, which holds the
four free variables `s`, `q`, `r`, `t` besides `x`. -/
theorem C3_cex :
    string_to_sympy_expr "sqrtx" = Except.ok sqrtxExpr ∧
      symList sqrtxExpr = ['s', 'q', 'r', 't'] ∧ noSyms sqrtxExpr = false := by
  refine ⟨by decide, by decide, by decide⟩

/-- Claim C3, amended: the parsed expression holds no free variables
other than `x` provided every name token of the input is `x`,
`log10`, `sqrt`, or a name built only from `x` and digits; names that
interleave other letters (such as `sqrtx`) are split into additional
one-letter free symbols. -/
theorem C3_thm (s : String) (rts : List RTok) (e : Expr)
    (htok : tokensOf (caretFix s) = some rts)
    (hgood : rts.all goodTok = true)
    (hok : string_to_sympy_expr s = Except.ok e) :
    noSyms e = true := by
  cases hfb : firstBad (stripFns (caretFix s)).toList with
  | some c =>
    simp only [string_to_sympy_expr, hfb] at hok
    exact Except.noConfusion hok
  | none =>
    simp only [string_to_sympy_expr, hfb, htok] at hok
    cases hpt : parseToks (insertMul (bindAll rts)) with
    | none =>
      simp only [hpt] at hok
      exact Except.noConfusion hok
    | some e2 =>
      simp only [hpt] at hok
      obtain rfl : e2 = e := Except.ok.inj hok
      unfold parseToks at hpt
      split at hpt
      next e3 heq =>
        obtain rfl : e3 = e2 := Option.some.inj hpt
        have hclean : (insertMul (bindAll rts)).all ptokClean = true :=
          insertMul_clean _ (bindAll_clean rts hgood)
        exact (parseL_clean _ Lv.e (Expr.num 0) _ e3 [] heq rfl hclean).1
      next => exact absurd hpt (by simp)

/-- Claim C3, witness: the input `"5x+3"`, whose only name token is
`x`, parses to an expression with no free variables besides `x`. -/
theorem C3_witness :
    string_to_sympy_expr "5x+3" = Except.ok
        (Expr.add (Expr.mul (Expr.num 5) Expr.var) (Expr.num 3)) ∧
      noSyms (Expr.add (Expr.mul (Expr.num 5) Expr.var) (Expr.num 3)) = true := by
  have hok : string_to_sympy_expr "5x+3" = Except.ok
      (Expr.add (Expr.mul (Expr.num 5) Expr.var) (Expr.num 3)) := by decide
  refine ⟨hok, ?_⟩
  exact C3_thm "5x+3" [RTok.num 5, RTok.name "x", RTok.plus, RTok.num 3] _
    (by decide) (by decide) hok

end Geowagdy
